import Mathlib

/-!
Shallow embedding of the NBA trade-deadline trading bot (Deno/TypeScript)
and its dashboard, covering the confidence classifier, dynamic position
sizing, market resolution, price-movement detection, order execution
(kill switch, deduplication, reference-price reconciliation) and the
profit-taking exit engine.

Prices are modelled as rationals (the source mixes dollar fractions and
cents), timestamps as integers (milliseconds), contract counts as
naturals.  JavaScript `Math.round` is `⌊x + 1/2⌋`, `Math.min`/`Math.max`
are `min`/`max` on ℚ.
-/

namespace Edgelord

/-- JavaScript `Math.round`: round half toward positive infinity. -/
def jsRound (q : ℚ) : ℤ := ⌊q + 1/2⌋

/-- JavaScript `Math.floor` on rationals. -/
def jsFloor (q : ℚ) : ℤ := ⌊q⌋

/-! ### Dynamic position sizing (`calculateDynamicPositionSize`) -/

/-- `calculateDynamicPositionSize(basePct, confidenceScore, currentPrice,
sourceMultiplier)` from the bot script.  The odds multiplier is
`currentPrice > 0 ? Math.min(2.0, (100 - currentPrice) / 50) : 1.0`,
the confidence multiplier is `0.5 + confidenceScore / 100`, and the final
percentage is capped at `basePct * 2`. -/
def calculateDynamicPositionSize (basePct confidenceScore currentPrice sourceMultiplier : ℚ) : ℚ :=
  let oddsMultiplier := if 0 < currentPrice then min 2 ((100 - currentPrice) / 50) else 1
  let confidenceMultiplier := 1/2 + confidenceScore / 100
  let finalPct := basePct * oddsMultiplier * confidenceMultiplier * sourceMultiplier
  min finalPct (basePct * 2)

/-- The sizing formula as the spec words it: the odds multiplier is
`min(2.0, (100 - currentPrice) / 50)` unconditionally. -/
def specPositionSize (basePct confidenceScore currentPrice sourceMultiplier : ℚ) : ℚ :=
  min (basePct * min 2 ((100 - currentPrice) / 50) * (1/2 + confidenceScore / 100) * sourceMultiplier)
    (basePct * 2)

/-! ### Reference-price reconciliation inside `placeOrder` -/

/-- The reference-price selection block of `placeOrder`: given the live
orderbook ask for the order's side and the cached last trade price
(already converted to that side), pick the reference price; the boolean
records whether the "orderbook far from last price" override was logged. -/
def referencePriceCalc (currentAsk lastPrice : Option ℤ) : Option ℤ × Bool :=
  match currentAsk, lastPrice with
  | some a, some l => if 20 < |a - l| then (some l, true) else (some a, false)
  | some a, none => (some a, false)
  | none, some l => (some l, false)
  | none, none => (none, false)

/-! ### Text machinery: JS `toLowerCase` and `String.prototype.includes`
modelled over `List Char` -/

/-- `text.toLowerCase()` character by character. -/
def lowerChars (s : List Char) : List Char := s.map Char.toLower

/-- Does `needle` occur at the start of `hay`? -/
def charsPrefix : List Char → List Char → Bool
  | [], _ => true
  | _ :: _, [] => false
  | a :: as, b :: bs => a == b && charsPrefix as bs

/-- `hay.includes(needle)`: does `needle` occur contiguously inside `hay`? -/
def charsHave (needle : List Char) : List Char → Bool
  | [] => charsPrefix needle []
  | c :: rest => charsPrefix needle (c :: rest) || charsHave needle rest

/-! ### Confidence tiers and keyword classifier -/

/-- A confidence tier record (`CONFIDENCE_TIERS` entries). -/
structure ConfidenceTier where
  level : ℕ
  name : String
  positionPct : ℚ
  maxPrice : ℚ
  action : String
deriving DecidableEq

/-- `CONFIDENCE_TIERS.CONFIRMED`. -/
def tierCONFIRMED : ConfidenceTier := ⟨1, "Confirmed", 1, 99, "buy_yes"⟩
/-- `CONFIDENCE_TIERS.IMMINENT`. -/
def tierIMMINENT : ConfidenceTier := ⟨2, "Imminent", 1/2, 92, "buy_yes"⟩
/-- `CONFIDENCE_TIERS.SERIOUS`. -/
def tierSERIOUS : ConfidenceTier := ⟨3, "Serious", 1/4, 80, "buy_yes"⟩
/-- `CONFIDENCE_TIERS.EXPLORING`. -/
def tierEXPLORING : ConfidenceTier := ⟨4, "Exploring", 0, 0, "hold"⟩
/-- `CONFIDENCE_TIERS.NEGATIVE`. -/
def tierNEGATIVE : ConfidenceTier := ⟨5, "Negative", 1/2, 50, "buy_no"⟩

/-- `TIER_KEYWORDS.CONFIRMED`. -/
def kwCONFIRMED : List String :=
  ["traded to", "has been traded", "is being traded", "deal done", "deal is done",
   "trade complete", "sending", "just in:", "breaking:",
   "trade finalized", "officially traded", "deal agreed"]

/-- `TIER_KEYWORDS.IMMINENT`. -/
def kwIMMINENT : List String :=
  ["finalizing", "close to done", "expected to", "on verge of", "imminent",
   "agreement in place", "will be traded", "set to acquire", "poised to",
   "working to finalize", "nearing completion"]

/-- `TIER_KEYWORDS.SERIOUS`. -/
def kwSERIOUS : List String :=
  ["ramped up", "serious discussions", "pushing hard", "engaged in talks",
   "in deep negotiations", "progressing", "gaining momentum", "intensifying",
   "advanced talks", "significant progress"]

/-- `TIER_KEYWORDS.EXPLORING`. -/
def kwEXPLORING : List String :=
  ["interested in", "exploring", "could", "might", "discussing",
   "monitoring", "keeping an eye on", "on their radar"]

/-- `TIER_KEYWORDS.NEGATIVE`. -/
def kwNEGATIVE : List String :=
  ["no longer", "not trading", "staying", "removed from", "off the table",
   "talks stalled", "unlikely", "not happening", "will not be traded",
   "committed to staying", "ruled out", "deal fell through",
   "pivoted to", "pivoted away", "instead of", "rather than", "passed on",
   "went with", "chose", "opted for"]

/-- Does some keyword of `kws` occur in (already lowercased) `lowerText`? -/
def anyKeyword (kws : List String) (lowerText : List Char) : Bool :=
  kws.any fun kw => charsHave kw.toList lowerText

/-- `classifyConfidence(text)`: negative keywords first, then confirmed,
imminent, serious, exploring, defaulting to exploring. -/
def classifyConfidence (text : List Char) : ConfidenceTier :=
  let lowerText := lowerChars text
  if anyKeyword kwNEGATIVE lowerText then tierNEGATIVE
  else if anyKeyword kwCONFIRMED lowerText then tierCONFIRMED
  else if anyKeyword kwIMMINENT lowerText then tierIMMINENT
  else if anyKeyword kwSERIOUS lowerText then tierSERIOUS
  else if anyKeyword kwEXPLORING lowerText then tierEXPLORING
  else tierEXPLORING

/-! ### Market resolution (`normalizeName`, `findTradeMarket`) -/

/-- JS regex `\s` whitespace class (the characters the source can meet). -/
def isWsChar (c : Char) : Bool :=
  c == ' ' || c == '\t' || c == '\n' || c == '\r' || c == '\x0b' || c == '\x0c'

/-- `replace(/\s+/g, " ")`: collapse each maximal whitespace run to one space. -/
def collapseWs : List Char → List Char
  | [] => []
  | [c] => if isWsChar c then [' '] else [c]
  | c1 :: c2 :: rest =>
    if isWsChar c1 && isWsChar c2 then collapseWs (c2 :: rest)
    else (if isWsChar c1 then ' ' else c1) :: collapseWs (c2 :: rest)

/-- `trim()`: drop leading and trailing whitespace. -/
def trimWs (s : List Char) : List Char :=
  ((s.dropWhile isWsChar).reverse.dropWhile isWsChar).reverse

/-- `normalizeName(name)`: lowercase, delete periods, collapse whitespace,
trim. -/
def normalizeName (s : List Char) : List Char :=
  trimWs (collapseWs ((lowerChars s).filter (fun c => !(c == '.'))))

/-- JS `str.split(" ")` (on a single-space separator). -/
def splitSp : List Char → List (List Char)
  | [] => [[]]
  | c :: rest =>
    match splitSp rest with
    | [] => [[c]]
    | w :: ws => if c == ' ' then [] :: w :: ws else (c :: w) :: ws

/-- A cached trade market row (the fields `findTradeMarket` reads). -/
structure TradeMarket where
  ticker : String
  player_name : List Char
deriving DecidableEq

/-- The partial-match test of `findTradeMarket`'s second loop: both last
names equal (market last name at least 4 characters) and both first
names equal. -/
def partialNameMatch (searchName marketName : List Char) : Bool :=
  let marketWords := splitSp (normalizeName marketName)
  let searchWords := splitSp searchName
  let marketLast := marketWords.getLastD []
  let searchLast := searchWords.getLastD []
  let marketFirst := marketWords.headD []
  let searchFirst := searchWords.headD []
  4 ≤ marketLast.length && marketLast == searchLast && marketFirst == searchFirst

/-- `findTradeMarket(playerName)`: exact normalized-name match first, then
the first-and-last-name partial match, otherwise no match (no fuzzy
matching). -/
def findTradeMarket (playerName : List Char) (tradeMarkets : List TradeMarket) :
    Option TradeMarket :=
  let searchName := normalizeName playerName
  match tradeMarkets.find? (fun m => normalizeName m.player_name == searchName) with
  | some m => some m
  | none => tradeMarkets.find? (fun m => partialNameMatch searchName m.player_name)

/-- Candidate instruments of the resolver-precision scenario. -/
def mkJohnSmith : TradeMarket := ⟨"TICK-JOHN", "John Smith".toList⟩

/-- Second candidate instrument of the resolver-precision scenario. -/
def mkJonSmith : TradeMarket := ⟨"TICK-JON", "Jon Smith".toList⟩

/-! ### Order execution (`placeOrder`) -/

/-- Order side (`"yes" | "no"`). -/
inductive Side where
  | yes
  | no
deriving DecidableEq

/-- Order action (`"buy" | "sell"`). -/
inductive Action where
  | buy
  | sell
deriving DecidableEq

/-- The result object `placeOrder` returns:
`{ success: boolean; orderId?: string; error?: string }`. -/
structure OrderResult where
  success : Bool
  orderId : Option String := none
  error : Option String := none
deriving DecidableEq

/-- What the exchange does with a submitted order: the POST throws, the
response is not ok, or the order is accepted with an id and status. -/
inductive ExchangeResp where
  | exn (msg : String)
  | httpError (body : String)
  | accepted (orderId status : String)
deriving DecidableEq

/-- The external data one `placeOrder` call observes: the orderbook asks
(from `getOrderbook`), the cached market `yes_price` (a dollar fraction,
`last_price / 100`), and the exchange's reaction to the POST. -/
structure OrderEnv where
  yesAsk : Option ℤ
  noAsk : Option ℤ
  cachedYesPrice : Option ℚ
  exchange : ExchangeResp
deriving DecidableEq

/-- `DEDUP_COOLDOWN_MS = 300000` (5 minutes). -/
def DEDUP_COOLDOWN_MS : ℤ := 300000

/-- `NBA_TRADING_DISABLED = true` — the hard-coded kill switch. -/
def NBA_TRADING_DISABLED : Bool := true

/-- `recentBuys.get(ticker)` on the ticker→timestamp map (modelled as an
association list). -/
def mapGet (m : List (String × ℤ)) (k : String) : Option ℤ :=
  (m.find? (fun p => p.1 == k)).map Prod.snd

/-- `recentBuys.set(ticker, now)`: replace the binding if present, else
append it. -/
def mapSet (m : List (String × ℤ)) (k : String) (v : ℤ) : List (String × ℤ) :=
  if m.any (fun p => p.1 == k) then m.map (fun p => if p.1 == k then (k, v) else p)
  else m ++ [(k, v)]

/-- The cleanup loop after a successful buy: delete entries older than the
cooldown (`now - ts > DEDUP_COOLDOWN_MS`). -/
def mapCleanup (m : List (String × ℤ)) (now : ℤ) : List (String × ℤ) :=
  m.filter (fun p => !(decide (DEDUP_COOLDOWN_MS < now - p.2)))

/-- Observable outcome of one `placeOrder` call: the returned result, the
new `recentBuys` map, whether the POST to the exchange was attempted,
whether a `trades` row was recorded, and the submitted limit price. -/
structure OrderOutcome where
  result : OrderResult
  recentBuys : List (String × ℤ)
  submitted : Bool
  tradeRecorded : Bool
  price : Option ℚ
deriving DecidableEq

/-- The tail of `placeOrder`: POST the order, and on success (for buys)
record the dedup timestamp and clean old entries. -/
def submitOrder (ticker : String) (action : Action) (env : OrderEnv)
    (recentBuys : List (String × ℤ)) (now : ℤ) (price : ℚ) : OrderOutcome :=
  match env.exchange with
  | .exn msg => ⟨⟨false, none, some msg⟩, recentBuys, true, false, some price⟩
  | .httpError body => ⟨⟨false, none, some body⟩, recentBuys, true, false, some price⟩
  | .accepted oid _ =>
    let rb2 := if action = Action.buy then mapCleanup (mapSet recentBuys ticker now) now
      else recentBuys
    ⟨⟨true, some oid, none⟩, rb2, true, true, some price⟩

/-- The sell-pricing block of `placeOrder`: at a 95¢+ reference sell at
market with no slippage, below that shade one cent (floored at 1¢), and
with no price data fall back to `maxPrice`. -/
def sellPricing (maxPrice : ℤ) (referencePrice : Option ℤ) : ℚ :=
  match referencePrice with
  | some r => if 95 ≤ r then (r : ℚ) else ((max (r - 1) 1 : ℤ) : ℚ)
  | none => (maxPrice : ℚ)

/-- The buy-pricing block of `placeOrder`: reject at a 98¢+ reference or
one above the tier maximum, price Confirmed at the tier max, Imminent
halfway between reference and max, other tiers at reference plus 3¢
slippage capped at the max; with no price data use `maxPrice`. -/
def buyPricing (maxPrice : ℤ) (tierName : String) (referencePrice : Option ℤ) :
    Except String ℚ :=
  match referencePrice with
  | some r =>
    if 98 ≤ r then
      .error ("Market at " ++ toString r ++ "c - already priced in")
    else if maxPrice < r then
      .error ("Market " ++ toString r ++ "c > tier max " ++ toString maxPrice ++ "c")
    else if tierName = "Confirmed" then .ok (maxPrice : ℚ)
    else if tierName = "Imminent" then
      .ok ((min (jsRound (((r + maxPrice : ℤ) : ℚ) / 2)) maxPrice : ℤ) : ℚ)
    else .ok ((min (r + 3) maxPrice : ℤ) : ℚ)
  | none => .ok (maxPrice : ℚ)

/-- The reference price one `placeOrder` call works with: the orderbook ask
for the order's side reconciled against the cached last trade price
converted to that side (`100 - yesPrice` for NO). -/
def orderReferencePrice (side : Side) (env : OrderEnv) : Option ℤ :=
  let currentAsk := match side with | .yes => env.yesAsk | .no => env.noAsk
  let yesPrice : Option ℤ := match env.cachedYesPrice with
    | some p => if p ≠ 0 then some (jsRound (p * 100)) else none
    | none => none
  let lastPrice : Option ℤ := match yesPrice with
    | some yp => some (match side with | .yes => yp | .no => 100 - yp)
    | none => none
  (referencePriceCalc currentAsk lastPrice).1

/-- The deduplication check for buys: the recorded timestamp when the
ticker was bought less than `DEDUP_COOLDOWN_MS` ago (a zero timestamp is
falsy in JS and never hits). -/
def dedupCheck (action : Action) (recentBuys : List (String × ℤ)) (ticker : String)
    (now : ℤ) : Option ℤ :=
  if action = Action.buy then
    match mapGet recentBuys ticker with
    | some ts => if ts ≠ 0 ∧ now - ts < DEDUP_COOLDOWN_MS then some ts else none
    | none => none
  else none

/-- `placeOrder(ticker, side, action, count, maxPrice, signal)` with the
kill-switch constant abstracted (`tierName` is `signal.confidence.name`,
the only signal field the pricing logic reads).  Mirrors the source:
kill switch, dedup check for buys, orderbook/cached-price reconciliation,
sell and buy pricing with the 98¢ and tier-max rejections, submission,
and dedup bookkeeping on accepted buys. -/
def placeOrderWith (disabled : Bool) (ticker : String) (side : Side) (action : Action)
    (count : ℕ) (maxPrice : ℤ) (tierName : String) (env : OrderEnv)
    (recentBuys : List (String × ℤ)) (now : ℤ) : OrderOutcome :=
  if disabled then ⟨⟨false, none, some "Trading disabled"⟩, recentBuys, false, false, none⟩
  else
    match dedupCheck action recentBuys ticker now with
    | some ts =>
      let secsAgo := jsRound (((now - ts : ℤ) : ℚ) / 1000)
      ⟨⟨false, none, some ("Dedup: bought " ++ toString secsAgo ++ "s ago")⟩,
        recentBuys, false, false, none⟩
    | none =>
      match action with
      | .sell =>
        submitOrder ticker Action.sell env recentBuys now
          (sellPricing maxPrice (orderReferencePrice side env))
      | .buy =>
        match buyPricing maxPrice tierName (orderReferencePrice side env) with
        | .error msg => ⟨⟨false, none, some msg⟩, recentBuys, false, false, none⟩
        | .ok price => submitOrder ticker Action.buy env recentBuys now price

/-- `placeOrder` as shipped: `placeOrderWith` at the hard-coded kill
switch. -/
def placeOrder (ticker : String) (side : Side) (action : Action)
    (count : ℕ) (maxPrice : ℤ) (tierName : String) (env : OrderEnv)
    (recentBuys : List (String × ℤ)) (now : ℤ) : OrderOutcome :=
  placeOrderWith NBA_TRADING_DISABLED ticker side action count maxPrice tierName env recentBuys
    now

/-- A benign environment: orderbook ask 70¢, no cached price, exchange
accepts. -/
def envAccept : OrderEnv := ⟨some 70, some 30, none, .accepted "oid-1" "resting"⟩

/-! ### Price-movement detection (`checkPriceMovements`, per market) -/

/-- One entry of `priceHistory[ticker]`. -/
structure PriceSnapshot where
  price : ℚ
  timestamp : ℤ
deriving DecidableEq

/-- `PRICE_ALERT_THRESHOLD = 0.10`. -/
def PRICE_ALERT_THRESHOLD : ℚ := 10 / 100

/-- `PRICE_HISTORY_WINDOW_MS = 5 * 60 * 1000`. -/
def PRICE_HISTORY_WINDOW_MS : ℤ := 5 * 60 * 1000

/-- The settings `checkPriceMovements` reads from `botSettings`. -/
structure AlertSettings where
  min_volume_for_alert : ℚ
  min_volume_for_auto_buy : ℚ
  price_spike_threshold : ℚ
  price_spike_trading : Bool
deriving DecidableEq

/-- Observable outcome of one market's pass through `checkPriceMovements`:
the new price window, whether a spike notification was sent, whether a
`signals` row was stored, and whether `handlePriceSpike` was invoked. -/
structure PriceMoveResult where
  newHistory : List PriceSnapshot
  notified : Bool
  signalStored : Bool
  autoBuyAttempted : Bool
deriving DecidableEq

/-- The window after pushing the current sample and dropping entries older
than the five-minute window. -/
def pmWindow (history : List PriceSnapshot) (now : ℤ) (currentPrice : ℚ) :
    List PriceSnapshot :=
  (history ++ [(⟨currentPrice, now⟩ : PriceSnapshot)]).filter fun p =>
    decide (now - p.timestamp < PRICE_HISTORY_WINDOW_MS)

/-- The oldest entry of the trimmed window (`priceHistory[ticker][0]`). -/
def pmOldest (history : List PriceSnapshot) (now : ℤ) (currentPrice : ℚ) : PriceSnapshot :=
  (pmWindow history now currentPrice).headD (⟨0, 0⟩ : PriceSnapshot)

/-- One market's body of the `checkPriceMovements` loop: push the sample,
trim the window, and on a ≥10% move from the window's oldest sample with
prior price below 90¢, either suppress on low volume (window reset, no
notification, no signal, no auto-buy) or alert: notify on an upward move
past the spike threshold, auto-buy only on very high volume with the
feature enabled, store the signal, and reset the window. -/
def checkPriceMovementStep (settings : AlertSettings) (history : List PriceSnapshot)
    (now : ℤ) (currentPrice volume : ℚ) : PriceMoveResult :=
  let h1 := pmWindow history now currentPrice
  if 2 ≤ h1.length then
    let oldest := pmOldest history now currentPrice
    let priceChange := currentPrice - oldest.price
    let pctChange := |priceChange / oldest.price|
    let isHighVolume := settings.min_volume_for_alert ≤ volume
    let isVeryHighVolume := settings.min_volume_for_auto_buy ≤ volume
    if PRICE_ALERT_THRESHOLD ≤ pctChange ∧ oldest.price < 90 / 100 then
      if !isHighVolume then ⟨[⟨currentPrice, now⟩], false, false, false⟩
      else
        let spike := 0 < priceChange ∧ settings.price_spike_threshold / 100 ≤ pctChange
        let autoBuy := spike ∧ isVeryHighVolume = true ∧ settings.price_spike_trading = true
        ⟨[⟨currentPrice, now⟩], decide spike, true, decide autoBuy⟩
    else ⟨h1, false, false, false⟩
  else ⟨h1, false, false, false⟩

/-! ### Profit taking (`checkProfitTaking`, per position) -/

/-- A Kalshi fill as `checkProfitTaking` reads it. -/
structure Fill where
  action : Action
  side : Side
  yes_price : Option ℚ
  count : ℚ
deriving DecidableEq

/-- The current price on the position's side: `yesPrice` for YES,
`1 - yesPrice` for NO (dollar fractions). -/
def sidePrice (side : Side) (yesPrice : ℚ) : ℚ :=
  match side with
  | .yes => yesPrice
  | .no => 1 - yesPrice

/-- `currentPriceCents = Math.round(currentSidePrice * 100)`. -/
def sidePriceCents (side : Side) (yesPrice : ℚ) : ℤ :=
  jsRound (sidePrice side yesPrice * 100)

/-- The per-fill entry price in cents: `pos.side === "no" ? 100 - yp : yp`
with `yp = fill.yes_price ?? 0`. -/
def fillEntryPrice (side : Side) (f : Fill) : ℚ :=
  match side with
  | .yes => f.yes_price.getD 0
  | .no => 100 - f.yes_price.getD 0

/-- `totalCost` accumulated over the buy fills. -/
def fillsTotalCost (side : Side) (fills : List Fill) : ℚ :=
  (fills.map fun f => fillEntryPrice side f * f.count).sum

/-- `totalContracts` accumulated over the buy fills. -/
def fillsTotalContracts (fills : List Fill) : ℚ :=
  (fills.map Fill.count).sum

/-- `avgEntryPrice = totalContracts > 0 ? totalCost / totalContracts : 0`. -/
def avgEntryOf (side : Side) (fills : List Fill) : ℚ :=
  if 0 < fillsTotalContracts fills then fillsTotalCost side fills / fillsTotalContracts fills
  else 0

/-- The buy fills on the position's side (`fillsData.fills` filtered to
`action === "buy" && side === pos.side`). -/
def buyFillsOf (side : Side) (fills : List Fill) : List Fill :=
  fills.filter fun f => f.action == Action.buy && f.side == side

/-- The position's average entry price from its buy fills. -/
def posAvgEntry (side : Side) (fills : List Fill) : ℚ :=
  avgEntryOf side (buyFillsOf side fills)

/-- `profitPerContract = currentPriceCents - avgEntryPrice`. -/
def posProfitPerContract (side : Side) (yesPrice : ℚ) (fills : List Fill) : ℚ :=
  (sidePriceCents side yesPrice : ℚ) - posAvgEntry side fills

/-- `profitPercent = avgEntryPrice > 0 ? profitPerContract / avgEntryPrice * 100 : 0`. -/
def posProfitPercent (side : Side) (yesPrice : ℚ) (fills : List Fill) : ℚ :=
  if 0 < posAvgEntry side fills then
    posProfitPerContract side yesPrice fills / posAvgEntry side fills * 100
  else 0

/-- What `checkProfitTaking` decides for one position in one cycle. -/
inductive ProfitDecision where
  | skip
  | hold
  | sell (count : ℕ) (price : ℚ)
deriving DecidableEq

/-- A position row from `getAllPositions`. -/
structure PositionRec where
  ticker : String
  contracts : ℕ
  side : Side
deriving DecidableEq

/-- One position's pass through the `checkProfitTaking` loop: skip
non-NBA tickers, skip when a resting sell order (live `getRestingOrders`
query) or a pending in-memory sell exists, skip without a cached price or
buy fills, then apply the four exit strategies in priority order — full
exit at 95¢+ with ≥5¢ profit, half exit at +30% and 60¢+ when the half
lot is at least 5 contracts, stop-loss at −40% outside the final 3 hours,
deadline liquidation below 60¢ inside the final 3 hours — else hold. -/
def profitTakingDecision (restingOrders pendingSells : List String) (isFinalHours : Bool)
    (pos : PositionRec) (yesPriceOpt : Option ℚ) (fills : List Fill) : ProfitDecision :=
  if !(charsPrefix "KXNBATRADE".toList pos.ticker.toList
      || charsPrefix "KXNEXTTEAM".toList pos.ticker.toList) then .skip
  else if restingOrders.contains pos.ticker || pendingSells.contains pos.ticker then .skip
  else
    match yesPriceOpt with
    | none => .skip
    | some yesPrice =>
      let currentSidePrice := sidePrice pos.side yesPrice
      let currentPriceCents := sidePriceCents pos.side yesPrice
      if (buyFillsOf pos.side fills).isEmpty then .skip
      else
        let avgEntryPrice := posAvgEntry pos.side fills
        let profitPerContract := posProfitPerContract pos.side yesPrice fills
        let profitPercent := posProfitPercent pos.side yesPrice fills
        if 95/100 ≤ currentSidePrice ∧ 5 ≤ profitPerContract then
          .sell pos.contracts (max (avgEntryPrice + 3) ((currentPriceCents : ℚ) - 2))
        else if 30 ≤ profitPercent ∧ 60 ≤ currentPriceCents ∧ 5 ≤ pos.contracts / 2 then
          .sell (pos.contracts / 2) ((currentPriceCents : ℚ) - 2)
        else if profitPercent ≤ -40 ∧ ¬isFinalHours then
          .sell pos.contracts ((currentPriceCents : ℚ) - 3)
        else if isFinalHours ∧ currentSidePrice < 60/100 then
          .sell pos.contracts ((currentPriceCents : ℚ) - 5)
        else .hold

/-! ### Dashboard NO-entry correction (`correctedPositions`) -/

/-- A dashboard position row (the fields the correction reads). -/
structure UiPosition where
  player_name : String
  market_type : String
  side : Side
  avg_entry_price : ℚ
  contracts : ℚ
  value : ℚ
  pnl : ℚ
deriving DecidableEq

/-- The per-position body of `correctedPositions`: a NO position whose
recorded average entry is above 50 was recorded on the YES basis, so
invert the entry (`100 - recorded`) and recompute P&L against it. -/
def correctPosition (pos : UiPosition) : UiPosition :=
  if pos.side = Side.no ∧ 50 < pos.avg_entry_price then
    let correctedEntry := 100 - pos.avg_entry_price
    let correctedCostBasis := correctedEntry * pos.contracts / 100
    let correctedPnL := pos.value - correctedCostBasis
    { pos with pnl := correctedPnL, avg_entry_price := correctedEntry }
  else pos

/-- `correctedPositions`: drop the glitched Darius Garland next-team test
trade, then apply the NO-entry correction to every row. -/
def correctedPositions (positions : List UiPosition) : List UiPosition :=
  (positions.filter fun pos =>
    !(pos.player_name == "Darius Garland" && pos.market_type == "next_team")).map
    correctPosition

/-! ## Theorems -/

/-- C2: with the kill-switch constant `NBA_TRADING_DISABLED` hard-coded to
`true`, every `placeOrder` call — any ticker, side, action, max price,
environment, dedup state and time — returns
`{ success: false, error: "Trading disabled" }` at once: the dedup map is
untouched (so the check never runs and no timestamp is set), the exchange
is not contacted and no trade is recorded. -/
theorem kill_switch_blocks_all_orders (ticker : String) (side : Side) (action : Action)
    (count : ℕ) (maxPrice : ℤ) (tierName : String) (env : OrderEnv)
    (recentBuys : List (String × ℤ)) (now : ℤ) :
    placeOrder ticker side action count maxPrice tierName env recentBuys now =
      ⟨⟨false, none, some "Trading disabled"⟩, recentBuys, false, false, none⟩ := rfl

/-- C7: reference-price reconciliation — when both the orderbook ask and
the cached last trade price exist and differ by more than 20 cents, the
cached price wins and the override is logged; within 20 cents the ask
wins; with only one source available that source is used. -/
theorem reference_price_reconciliation (a l : ℤ) :
    (20 < |a - l| → referencePriceCalc (some a) (some l) = (some l, true)) ∧
    (|a - l| ≤ 20 → referencePriceCalc (some a) (some l) = (some a, false)) ∧
    referencePriceCalc (some a) none = (some a, false) ∧
    referencePriceCalc none (some l) = (some l, false) := by
  refine ⟨fun h => ?_, fun h => ?_, rfl, rfl⟩
  · simp [referencePriceCalc, h]
  · simp [referencePriceCalc, not_lt.mpr h]

/-- Witness for C7 at asks 95¢ vs last 60¢ (override) and 70¢ vs 65¢
(orderbook kept). -/
theorem reference_price_reconciliation_witness :
    referencePriceCalc (some 95) (some 60) = (some 60, true) ∧
    referencePriceCalc (some 70) (some 65) = (some 70, false) :=
  ⟨(reference_price_reconciliation 95 60).1 (by decide),
   (reference_price_reconciliation 70 65).2.1 (by decide)⟩

/-- C3 counterexample: at `currentPrice = 0` the code's odds multiplier is
the fallback `1.0`, not `min(2.0, (100 - 0) / 50) = 2`, so the returned
percentage differs from the claimed formula (1/4 ≠ 1/2 scaled by base 1). -/
theorem sizing_formula_counterexample :
    calculateDynamicPositionSize 1 50 0 1 ≠ specPositionSize 1 50 0 1 := by
  norm_num [calculateDynamicPositionSize, specPositionSize]

/-- C3 amended: for positive `currentPrice` the returned percentage equals
the spec's formula
`min(tierBasePct·oddsMultiplier·confidenceMultiplier·sourceReliability, tierBasePct·2)`;
the result never exceeds twice the tier base for any inputs; and for a
nonnegative base and reliability and a price at most 100 it is
non-decreasing in the confidence score. -/
theorem sizing_formula_amended (b c p s : ℚ) :
    (0 < p → calculateDynamicPositionSize b c p s = specPositionSize b c p s) ∧
    calculateDynamicPositionSize b c p s ≤ b * 2 ∧
    (0 ≤ b → 0 ≤ s → p ≤ 100 → ∀ c1 c2, c1 ≤ c2 →
      calculateDynamicPositionSize b c1 p s ≤ calculateDynamicPositionSize b c2 p s) := by
  refine ⟨fun h => ?_, ?_, fun hb hs hp c1 c2 hc => ?_⟩
  · simp [calculateDynamicPositionSize, specPositionSize, if_pos h]
  · simp only [calculateDynamicPositionSize]
    exact min_le_right _ _
  · simp only [calculateDynamicPositionSize]
    have hodds : (0:ℚ) ≤ (if 0 < p then min 2 ((100 - p) / 50) else 1) := by
      split
      · exact le_min (by norm_num) (div_nonneg (by linarith) (by norm_num))
      · norm_num
    refine min_le_min ?_ le_rfl
    have hconf : (1:ℚ)/2 + c1 / 100 ≤ 1/2 + c2 / 100 := by linarith
    exact mul_le_mul_of_nonneg_right
      (mul_le_mul_of_nonneg_left hconf (mul_nonneg hb hodds)) hs

/-- Witness for C3 amended at base 1, price 50¢, reliability 1, confidence
scores 0 ≤ 100. -/
theorem sizing_formula_amended_witness :
    calculateDynamicPositionSize 1 50 50 1 = specPositionSize 1 50 50 1 ∧
    calculateDynamicPositionSize 1 0 50 1 ≤ calculateDynamicPositionSize 1 100 50 1 :=
  ⟨(sizing_formula_amended 1 50 50 1).1 (by norm_num),
   (sizing_formula_amended 1 0 50 1).2.2 (by norm_num) (by norm_num) (by norm_num)
     0 100 (by norm_num)⟩

/-- `submitOrder` either fails leaving the map alone or succeeds, updating
it only for buys. -/
theorem submitOrder_outcome (ticker : String) (action : Action) (env : OrderEnv)
    (rb : List (String × ℤ)) (now : ℤ) (price : ℚ) :
    ((submitOrder ticker action env rb now price).result.success = false ∧
      (submitOrder ticker action env rb now price).recentBuys = rb) ∨
    ((submitOrder ticker action env rb now price).result.success = true ∧
      (submitOrder ticker action env rb now price).recentBuys =
        (if action = Action.buy then mapCleanup (mapSet rb ticker now) now else rb)) := by
  obtain ⟨ya, na, cy, ex⟩ := env
  cases ex with
  | exn m => exact Or.inl ⟨rfl, rfl⟩
  | httpError b => exact Or.inl ⟨rfl, rfl⟩
  | accepted o s => exact Or.inr ⟨rfl, rfl⟩

/-- Every `placeOrder` path either fails and leaves the dedup map alone, or
succeeds; only a successful buy rewrites the map (timestamp plus cleanup). -/
theorem placeOrderWith_outcome (disabled : Bool) (ticker : String) (side : Side)
    (action : Action) (count : ℕ) (maxPrice : ℤ) (tierName : String) (env : OrderEnv)
    (rb : List (String × ℤ)) (now : ℤ) :
    ((placeOrderWith disabled ticker side action count maxPrice tierName env rb now).result.success = false ∧
      (placeOrderWith disabled ticker side action count maxPrice tierName env rb now).recentBuys = rb) ∨
    ((placeOrderWith disabled ticker side action count maxPrice tierName env rb now).result.success = true ∧
      (placeOrderWith disabled ticker side action count maxPrice tierName env rb now).recentBuys =
        (if action = Action.buy then mapCleanup (mapSet rb ticker now) now else rb)) := by
  cases disabled with
  | true => exact Or.inl ⟨rfl, rfl⟩
  | false =>
    cases action with
    | sell => exact submitOrder_outcome ticker Action.sell env rb now _
    | buy =>
      unfold placeOrderWith
      cases hd : dedupCheck Action.buy rb ticker now with
      | some ts => exact Or.inl ⟨rfl, rfl⟩
      | none =>
        cases hbp : buyPricing maxPrice tierName (orderReferencePrice side env) with
        | error msg => exact Or.inl ⟨rfl, rfl⟩
        | ok price => simpa using submitOrder_outcome ticker Action.buy env rb now price

/-- `mapGet` on a cons cell. -/
theorem mapGet_cons (p : String × ℤ) (m : List (String × ℤ)) (k : String) :
    mapGet (p :: m) k = if p.1 == k then some p.2 else mapGet m k := by
  by_cases h : p.1 == k <;> simp [mapGet, List.find?, h]

/-- After rewriting every binding of `k` to `v`, cleanup keeps `(k, v)` (it
is fresh) and lookup finds it. -/
theorem mapGet_cleanup_mapped (k : String) (v now : ℤ)
    (hv : ¬DEDUP_COOLDOWN_MS < now - v) :
    ∀ m : List (String × ℤ), m.any (fun p => p.1 == k) = true →
      mapGet (mapCleanup (m.map fun p => if p.1 == k then (k, v) else p) now) k = some v := by
  intro m
  induction m with
  | nil => intro h; simp at h
  | cons hd tl ih =>
    intro h
    by_cases h1 : hd.1 == k
    · simp only [List.map_cons, if_pos h1, mapCleanup, List.filter_cons]
      rw [if_pos (by simp [hv])]
      simp [mapGet_cons]
    · have htl : tl.any (fun p => p.1 == k) = true := by
        simpa [List.any_cons, h1] using h
      simp only [List.map_cons, if_neg h1, mapCleanup, List.filter_cons]
      by_cases h2 : DEDUP_COOLDOWN_MS < now - hd.2
      · rw [if_neg (by simp [h2])]
        exact ih htl
      · rw [if_pos (by simp [h2])]
        rw [mapGet_cons]
        simp only [h1, if_false]
        exact ih htl

/-- Appending a fresh `(k, v)` binding: cleanup keeps it and lookup finds
it when no earlier binding of `k` exists. -/
theorem mapGet_cleanup_appended (k : String) (v now : ℤ)
    (hv : ¬DEDUP_COOLDOWN_MS < now - v) :
    ∀ m : List (String × ℤ), m.any (fun p => p.1 == k) = false →
      mapGet (mapCleanup (m ++ [(k, v)]) now) k = some v := by
  intro m
  induction m with
  | nil =>
    intro _
    simp only [List.nil_append, mapCleanup, List.filter_cons]
    rw [if_pos (by simp [hv])]
    simp [mapGet_cons]
  | cons hd tl ih =>
    intro h
    have h1 : (hd.1 == k) = false := by
      rcases List.any_eq_false.mp h hd (List.mem_cons_self hd tl) with h1
      simpa using h1
    have htl : tl.any (fun p => p.1 == k) = false := by
      refine List.any_eq_false.mpr fun p hp => ?_
      exact List.any_eq_false.mp h p (List.mem_cons_of_mem hd hp)
    simp only [List.cons_append, mapCleanup, List.filter_cons]
    by_cases h2 : DEDUP_COOLDOWN_MS < now - hd.2
    · rw [if_neg (by simp [h2])]
      exact ih htl
    · rw [if_pos (by simp [h2])]
      rw [mapGet_cons]
      simp only [h1, if_false]
      exact ih htl

/-- The dedup bookkeeping after an accepted buy leaves the fresh timestamp
readable: set then cleanup, then lookup yields the new timestamp. -/
theorem mapGet_mapSet_cleanup (m : List (String × ℤ)) (k : String) (v now : ℤ)
    (hv : ¬DEDUP_COOLDOWN_MS < now - v) :
    mapGet (mapCleanup (mapSet m k v) now) k = some v := by
  by_cases hany : m.any (fun p => p.1 == k)
  · rw [mapSet, if_pos hany]
    exact mapGet_cleanup_mapped k v now hv m hany
  · rw [mapSet, if_neg hany]
    exact mapGet_cleanup_appended k v now hv m (Bool.eq_false_iff.mpr hany)

/-- A buy whose dedup check hits is rejected with the dedup error and no
state change or submission. -/
theorem placeOrderWith_dedup_rejected (ticker : String) (side : Side) (count : ℕ)
    (maxPrice : ℤ) (tierName : String) (env : OrderEnv) (rb : List (String × ℤ)) (now ts : ℤ)
    (hd : dedupCheck Action.buy rb ticker now = some ts) :
    placeOrderWith false ticker side Action.buy count maxPrice tierName env rb now =
      ⟨⟨false, none,
        some ("Dedup: bought " ++ toString (jsRound (((now - ts : ℤ) : ℚ) / 1000)) ++ "s ago")⟩,
        rb, false, false, none⟩ := by
  unfold placeOrderWith
  rw [hd]
  rfl

/-- A successful buy records its timestamp: the new map is the set-then-
cleanup rewrite of the old one. -/
theorem placeOrderWith_buy_success_recentBuys (ticker : String) (side : Side) (count : ℕ)
    (maxPrice : ℤ) (tierName : String) (env : OrderEnv) (rb : List (String × ℤ)) (now : ℤ)
    (h : (placeOrderWith false ticker side Action.buy count maxPrice tierName env rb
      now).result.success = true) :
    (placeOrderWith false ticker side Action.buy count maxPrice tierName env rb
      now).recentBuys =
      mapCleanup (mapSet rb ticker now) now := by
  rcases placeOrderWith_outcome false ticker side Action.buy count maxPrice tierName env rb
    now with
    ⟨hf, _⟩ | ⟨_, hrb⟩
  · rw [h] at hf; cases hf
  · simpa using hrb

/-- The dedup check hits after a fresh buy timestamp was recorded. -/
theorem dedupCheck_after_record (rb : List (String × ℤ)) (ticker : String) (now now2 : ℤ)
    (h0 : now ≠ 0) (hcool : ¬DEDUP_COOLDOWN_MS < now - now)
    (hlt : now2 - now < DEDUP_COOLDOWN_MS) :
    dedupCheck Action.buy (mapCleanup (mapSet rb ticker now) now) ticker now2 = some now := by
  unfold dedupCheck
  rw [if_pos rfl, mapGet_mapSet_cleanup rb ticker now now hcool]
  exact if_pos ⟨h0, hlt⟩

/-- C10: the per-ticker dedup timestamp is recorded only on an exchange-
accepted buy — whenever `placeOrder` returns `success: false` (kill
switch, dedup cooldown, near-certainty ceiling, tier price ceiling,
rejected or failed submission), the `recentBuys` map is unchanged, so a
rejected or failed buy starts no cooldown.  Stated for either kill-switch
value, which covers the shipped `placeOrder`. -/
theorem dedup_timestamp_only_on_success (disabled : Bool) (ticker : String) (side : Side)
    (action : Action) (count : ℕ) (maxPrice : ℤ) (tierName : String) (env : OrderEnv)
    (rb : List (String × ℤ)) (now : ℤ)
    (h : (placeOrderWith disabled ticker side action count maxPrice tierName env rb now).result.success
      = false) :
    (placeOrderWith disabled ticker side action count maxPrice tierName env rb now).recentBuys = rb := by
  rcases placeOrderWith_outcome disabled ticker side action count maxPrice tierName env rb
    now with
    ⟨_, hrb⟩ | ⟨ht, _⟩
  · exact hrb
  · rw [ht] at h; cases h

/-- Witness for C10: a kill-switch rejection (the shipped configuration)
leaves a non-empty dedup map untouched. -/
theorem dedup_timestamp_only_on_success_witness :
    (placeOrderWith true "KXNBATRADE-X" Side.yes Action.buy 100 99 "Confirmed" envAccept
      [("KXNBATRADE-A", 5)] 1000).recentBuys = [("KXNBATRADE-A", 5)] :=
  dedup_timestamp_only_on_success true "KXNBATRADE-X" Side.yes Action.buy 100 99 "Confirmed"
    envAccept [("KXNBATRADE-A", 5)] 1000 rfl

/-- C4 counterexample: under the shipped kill switch, submitting the same
buy twice in quick succession yields zero successful orders — both calls
fail with "Trading disabled", not one success and one dedup rejection. -/
theorem dedup_idempotence_counterexample :
    (placeOrder "KXNBATRADE-X" Side.yes Action.buy 100 99 "Confirmed" envAccept [] 1000).result
        = ⟨false, none, some "Trading disabled"⟩ ∧
    (placeOrder "KXNBATRADE-X" Side.yes Action.buy 100 99 "Confirmed" envAccept
        (placeOrder "KXNBATRADE-X" Side.yes Action.buy 100 99 "Confirmed" envAccept [] 1000).recentBuys
        61000).result
        = ⟨false, none, some "Trading disabled"⟩ := ⟨rfl, rfl⟩

/-- C4 amended: with the kill switch off, after a successful buy on a
ticker (at a nonzero time), any further buy on that ticker within the
5-minute cooldown is rejected with the dedup error, nothing is submitted
and the map is unchanged; sell requests never consult the cooldown (their
result ignores the dedup map and they leave it unchanged). -/
theorem dedup_idempotence_amended (ticker : String) (side : Side) (count : ℕ) (maxPrice : ℤ)
    (tierName : String) (env : OrderEnv) (rb : List (String × ℤ)) (now : ℤ)
    (side2 : Side) (count2 : ℕ) (maxPrice2 : ℤ) (tier2 : String) (env2 : OrderEnv) (now2 : ℤ)
    (h : (placeOrderWith false ticker side Action.buy count maxPrice tierName env rb
      now).result.success = true)
    (h0 : now ≠ 0) (hlt : now2 - now < DEDUP_COOLDOWN_MS) :
    (placeOrderWith false ticker side2 Action.buy count2 maxPrice2 tier2 env2
        (placeOrderWith false ticker side Action.buy count maxPrice tierName env rb
          now).recentBuys
        now2) =
      ⟨⟨false, none,
        some ("Dedup: bought " ++ toString (jsRound (((now2 - now : ℤ) : ℚ) / 1000)) ++ "s ago")⟩,
        (placeOrderWith false ticker side Action.buy count maxPrice tierName env rb
          now).recentBuys,
        false, false, none⟩
    ∧ ∀ (t : String) (s : Side) (c : ℕ) (m : ℤ) (tn : String) (e : OrderEnv)
        (rbA rbB : List (String × ℤ)) (n : ℤ),
        (placeOrderWith false t s Action.sell c m tn e rbA n).result =
          (placeOrderWith false t s Action.sell c m tn e rbB n).result ∧
        (placeOrderWith false t s Action.sell c m tn e rbA n).recentBuys = rbA := by
  constructor
  · have hrb := placeOrderWith_buy_success_recentBuys ticker side count maxPrice tierName env
      rb now h
    rw [hrb]
    exact placeOrderWith_dedup_rejected ticker side2 count2 maxPrice2 tier2 env2 _ now2 now
      (dedupCheck_after_record rb ticker now now2 h0 (by simp [DEDUP_COOLDOWN_MS]) hlt)
  · intro t s c m tn e rbA rbB n
    obtain ⟨ya, na, cy, ex⟩ := e
    cases ex with
    | exn msg => exact ⟨rfl, rfl⟩
    | httpError b => exact ⟨rfl, rfl⟩
    | accepted o st => exact ⟨rfl, rfl⟩

/-- Witness for C4 amended: ticker bought at t = 1000 ms, second buy at
t = 61000 ms (60 s later, inside the 5-minute cooldown) is rejected with
the dedup error. -/
theorem dedup_idempotence_amended_witness :
    (placeOrderWith false "KXNBATRADE-X" Side.yes Action.buy 100 99 "Confirmed" envAccept
        (placeOrderWith false "KXNBATRADE-X" Side.yes Action.buy 100 99 "Confirmed" envAccept
          [] 1000).recentBuys
        61000) =
      ⟨⟨false, none,
        some ("Dedup: bought " ++ toString (jsRound (((61000 - 1000 : ℤ) : ℚ) / 1000)) ++ "s ago")⟩,
        (placeOrderWith false "KXNBATRADE-X" Side.yes Action.buy 100 99 "Confirmed" envAccept
          [] 1000).recentBuys,
        false, false, none⟩ :=
  (dedup_idempotence_amended "KXNBATRADE-X" Side.yes 100 99 "Confirmed" envAccept [] 1000
    Side.yes 100 99 "Confirmed" envAccept 61000 rfl (by decide) (by decide)).1

/-- C5: any Negative-tier keyword in the text forces the Negative tier,
whatever else matches; with no negative match the positive tiers are
tried in order Confirmed, Imminent, Serious, first match winning, and
everything else (an Exploring match or no match at all) yields
Exploring. -/
theorem classifier_negative_priority (text : List Char) :
    ((∃ kw ∈ kwNEGATIVE, charsHave kw.toList (lowerChars text) = true) →
      classifyConfidence text = tierNEGATIVE) ∧
    ((∀ kw ∈ kwNEGATIVE, charsHave kw.toList (lowerChars text) = false) →
      ((∃ kw ∈ kwCONFIRMED, charsHave kw.toList (lowerChars text) = true) →
        classifyConfidence text = tierCONFIRMED) ∧
      ((∀ kw ∈ kwCONFIRMED, charsHave kw.toList (lowerChars text) = false) →
        ((∃ kw ∈ kwIMMINENT, charsHave kw.toList (lowerChars text) = true) →
          classifyConfidence text = tierIMMINENT) ∧
        ((∀ kw ∈ kwIMMINENT, charsHave kw.toList (lowerChars text) = false) →
          ((∃ kw ∈ kwSERIOUS, charsHave kw.toList (lowerChars text) = true) →
            classifyConfidence text = tierSERIOUS) ∧
          ((∀ kw ∈ kwSERIOUS, charsHave kw.toList (lowerChars text) = false) →
            classifyConfidence text = tierEXPLORING)))) := by
  have toTrue : ∀ kws : List String,
      (∃ kw ∈ kws, charsHave kw.toList (lowerChars text) = true) →
      anyKeyword kws (lowerChars text) = true := fun kws h => by
    simpa [anyKeyword, List.any_eq_true] using h
  have toFalse : ∀ kws : List String,
      (∀ kw ∈ kws, charsHave kw.toList (lowerChars text) = false) →
      anyKeyword kws (lowerChars text) = false := fun kws h => by
    simp only [anyKeyword]
    exact List.any_eq_false.mpr fun kw hk => by
      rw [Bool.not_eq_true]
      exact h kw hk
  refine ⟨fun h => ?_, fun hneg => ⟨fun h => ?_, fun hconf => ⟨fun h => ?_,
    fun himm => ⟨fun h => ?_, fun hser => ?_⟩⟩⟩⟩
  · simp [classifyConfidence, toTrue _ h]
  · simp [classifyConfidence, toFalse _ hneg, toTrue _ h]
  · simp [classifyConfidence, toFalse _ hneg, toFalse _ hconf, toTrue _ h]
  · simp [classifyConfidence, toFalse _ hneg, toFalse _ hconf, toFalse _ himm, toTrue _ h]
  · by_cases hexp : anyKeyword kwEXPLORING (lowerChars text) = true <;>
      simp [classifyConfidence, toFalse _ hneg, toFalse _ hconf, toFalse _ himm,
        toFalse _ hser, hexp]

/-- Witness for C5: a text holding both a Confirmed keyword ("deal done",
"breaking:") and a Negative keyword ("talks stalled") classifies
Negative. -/
theorem classifier_negative_priority_witness :
    classifyConfidence "BREAKING: deal done, but talks stalled".toList = tierNEGATIVE :=
  (classifier_negative_priority "BREAKING: deal done, but talks stalled".toList).1
    ⟨"talks stalled", by decide, by decide⟩

/-- C6: the resolver returns a market only on an exact normalized-name
match or when both the first and the last normalized word agree with the
market's and the market's last word has at least 4 characters; the
ambiguous "J. Smith" against "John Smith" and "Jon Smith" resolves to
nothing. -/
theorem resolver_precision :
    (∀ (name : List Char) (ms : List TradeMarket) (m : TradeMarket),
      findTradeMarket name ms = some m →
      normalizeName m.player_name = normalizeName name ∨
        (4 ≤ ((splitSp (normalizeName m.player_name)).getLastD []).length ∧
          (splitSp (normalizeName m.player_name)).getLastD []
            = (splitSp (normalizeName name)).getLastD [] ∧
          (splitSp (normalizeName m.player_name)).headD []
            = (splitSp (normalizeName name)).headD [])) ∧
    findTradeMarket "J. Smith".toList [mkJohnSmith, mkJonSmith] = none := by
  constructor
  · intro name ms m h
    simp only [findTradeMarket] at h
    cases hf : ms.find? (fun mk => normalizeName mk.player_name == normalizeName name) with
    | some m0 =>
      rw [hf] at h
      have hm : m0 = m := by simpa using h
      have := List.find?_some hf
      left
      rw [← hm]
      simpa using this
    | none =>
      rw [hf] at h
      have := List.find?_some h
      right
      simpa [partialNameMatch, Bool.and_eq_true, decide_eq_true_eq, and_assoc] using this
  · rfl

/-- Witness for C6: "John  Smith." (stray spacing and period) matches the
"John Smith" instrument, so the soundness disjunction holds there. -/
theorem resolver_precision_witness :
    normalizeName mkJohnSmith.player_name = normalizeName "John  Smith.".toList ∨
      (4 ≤ ((splitSp (normalizeName mkJohnSmith.player_name)).getLastD []).length ∧
        (splitSp (normalizeName mkJohnSmith.player_name)).getLastD []
          = (splitSp (normalizeName "John  Smith.".toList)).getLastD [] ∧
        (splitSp (normalizeName mkJohnSmith.player_name)).headD []
          = (splitSp (normalizeName "John  Smith.".toList)).headD []) :=
  resolver_precision.1 "John  Smith.".toList [mkJohnSmith] mkJohnSmith (by rfl)

/-- C8: a ≥10% move (threshold `PRICE_ALERT_THRESHOLD`) from a sub-90¢
prior price on volume below the alert floor is fully suppressed — no
notification, no stored signal, no auto-buy attempt — and the window is
reset to the single current sample, exactly the reset an alert on
sufficient volume performs (second conjunct). -/
theorem low_volume_spike_suppression (settings : AlertSettings) (history : List PriceSnapshot)
    (now : ℤ) (currentPrice volume : ℚ)
    (hlen : 2 ≤ (pmWindow history now currentPrice).length)
    (hpct : PRICE_ALERT_THRESHOLD ≤
      |(currentPrice - (pmOldest history now currentPrice).price) /
        (pmOldest history now currentPrice).price|)
    (holdp : (pmOldest history now currentPrice).price < 90 / 100)
    (hvol : volume < settings.min_volume_for_alert) :
    checkPriceMovementStep settings history now currentPrice volume =
      ⟨[⟨currentPrice, now⟩], false, false, false⟩ ∧
    ∀ volume2, settings.min_volume_for_alert ≤ volume2 →
      (checkPriceMovementStep settings history now currentPrice volume2).newHistory =
        [⟨currentPrice, now⟩] ∧
      (checkPriceMovementStep settings history now currentPrice volume2).signalStored = true := by
  constructor
  · simp only [checkPriceMovementStep]
    rw [if_pos hlen, if_pos ⟨hpct, holdp⟩, decide_eq_false (not_le.mpr hvol)]
    rfl
  · intro volume2 hv2
    simp only [checkPriceMovementStep]
    rw [if_pos hlen, if_pos ⟨hpct, holdp⟩, decide_eq_true hv2]
    exact ⟨rfl, rfl⟩

/-- Witness for C8: a 100% move from 50¢ to $1 on volume 100 below the
5000 floor is suppressed; the same move on volume 5000 alerts and leaves
the same one-sample window. -/
theorem low_volume_spike_suppression_witness :
    checkPriceMovementStep ⟨5000, 10000, 5, true⟩ [⟨1/2, 0⟩] 1000 1 100 =
      ⟨[⟨1, 1000⟩], false, false, false⟩ ∧
    ∀ volume2, (5000 : ℚ) ≤ volume2 →
      (checkPriceMovementStep ⟨5000, 10000, 5, true⟩ [⟨1/2, 0⟩] 1000 1 volume2).newHistory =
        [⟨1, 1000⟩] ∧
      (checkPriceMovementStep ⟨5000, 10000, 5, true⟩ [⟨1/2, 0⟩] 1000 1 volume2).signalStored
        = true :=
  low_volume_spike_suppression ⟨5000, 10000, 5, true⟩ [⟨1/2, 0⟩] 1000 1 100
    (by norm_num [pmWindow, PRICE_HISTORY_WINDOW_MS])
    (by norm_num [pmWindow, pmOldest, PRICE_ALERT_THRESHOLD, PRICE_HISTORY_WINDOW_MS])
    (by norm_num [pmWindow, pmOldest, PRICE_HISTORY_WINDOW_MS])
    (by norm_num)

/-- C9: per position and cycle the engine issues at most one decision — a
known resting (or pending) sell order skips the position outright for any
cached price; otherwise, on an NBA ticker with a cached price and buy
fills, the exit rules fire in priority order with the first match
winning: (1) side price ≥ 95¢ with ≥ 5¢ profit sells the whole position,
(2) gain ≥ 30% at ≥ 60¢ sells half but only when the half lot is at
least 5 contracts, (3) loss ≤ −40% outside the final three hours sells
all, (4) inside the final three hours below 60¢ sells all, else hold. -/
theorem profit_taking_priority (restingOrders pendingSells : List String)
    (isFinalHours : Bool) (pos : PositionRec) (yesPrice : ℚ) (fills : List Fill) :
    ((restingOrders.contains pos.ticker = true ∨ pendingSells.contains pos.ticker = true) →
      ∀ ypo : Option ℚ,
        profitTakingDecision restingOrders pendingSells isFinalHours pos ypo fills
          = ProfitDecision.skip) ∧
    ((charsPrefix "KXNBATRADE".toList pos.ticker.toList
        || charsPrefix "KXNEXTTEAM".toList pos.ticker.toList) = true →
      restingOrders.contains pos.ticker = false →
      pendingSells.contains pos.ticker = false →
      (buyFillsOf pos.side fills).isEmpty = false →
      ((95/100 ≤ sidePrice pos.side yesPrice ∧
          5 ≤ posProfitPerContract pos.side yesPrice fills) →
        profitTakingDecision restingOrders pendingSells isFinalHours pos (some yesPrice) fills
          = ProfitDecision.sell pos.contracts
              (max (posAvgEntry pos.side fills + 3)
                ((sidePriceCents pos.side yesPrice : ℚ) - 2))) ∧
      (¬(95/100 ≤ sidePrice pos.side yesPrice ∧
          5 ≤ posProfitPerContract pos.side yesPrice fills) →
        ((30 ≤ posProfitPercent pos.side yesPrice fills ∧
            60 ≤ sidePriceCents pos.side yesPrice ∧ 5 ≤ pos.contracts / 2) →
          profitTakingDecision restingOrders pendingSells isFinalHours pos (some yesPrice) fills
            = ProfitDecision.sell (pos.contracts / 2)
                ((sidePriceCents pos.side yesPrice : ℚ) - 2)) ∧
        (¬(30 ≤ posProfitPercent pos.side yesPrice fills ∧
            60 ≤ sidePriceCents pos.side yesPrice ∧ 5 ≤ pos.contracts / 2) →
          ((posProfitPercent pos.side yesPrice fills ≤ -40 ∧ ¬isFinalHours = true) →
            profitTakingDecision restingOrders pendingSells isFinalHours pos (some yesPrice) fills
              = ProfitDecision.sell pos.contracts
                  ((sidePriceCents pos.side yesPrice : ℚ) - 3)) ∧
          (¬(posProfitPercent pos.side yesPrice fills ≤ -40 ∧ ¬isFinalHours = true) →
            ((isFinalHours = true ∧ sidePrice pos.side yesPrice < 60/100) →
              profitTakingDecision restingOrders pendingSells isFinalHours pos (some yesPrice)
                  fills
                = ProfitDecision.sell pos.contracts
                    ((sidePriceCents pos.side yesPrice : ℚ) - 5)) ∧
            (¬(isFinalHours = true ∧ sidePrice pos.side yesPrice < 60/100) →
              profitTakingDecision restingOrders pendingSells isFinalHours pos (some yesPrice)
                  fills
                = ProfitDecision.hold))))) := by
  constructor
  · intro h ypo
    simp only [profitTakingDecision]
    split
    · rfl
    · split
      · rfl
      · rename_i hc
        exfalso
        simp at hc
        rcases h with h | h <;> simp at h
        · exact hc.1 h
        · exact hc.2 h
  · intro hpre hr hp hf
    have hbody :
        profitTakingDecision restingOrders pendingSells isFinalHours pos (some yesPrice) fills =
        (if 95/100 ≤ sidePrice pos.side yesPrice ∧
            5 ≤ posProfitPerContract pos.side yesPrice fills then
          ProfitDecision.sell pos.contracts
            (max (posAvgEntry pos.side fills + 3) ((sidePriceCents pos.side yesPrice : ℚ) - 2))
        else if 30 ≤ posProfitPercent pos.side yesPrice fills ∧
            60 ≤ sidePriceCents pos.side yesPrice ∧ 5 ≤ pos.contracts / 2 then
          ProfitDecision.sell (pos.contracts / 2) ((sidePriceCents pos.side yesPrice : ℚ) - 2)
        else if posProfitPercent pos.side yesPrice fills ≤ -40 ∧ ¬isFinalHours = true then
          ProfitDecision.sell pos.contracts ((sidePriceCents pos.side yesPrice : ℚ) - 3)
        else if isFinalHours = true ∧ sidePrice pos.side yesPrice < 60/100 then
          ProfitDecision.sell pos.contracts ((sidePriceCents pos.side yesPrice : ℚ) - 5)
        else ProfitDecision.hold) := by
      simp only [profitTakingDecision, hpre, hr, hp, hf, Bool.not_true, Bool.false_or,
        Bool.false_eq_true, if_false]
    refine ⟨fun h1 => ?_, fun h1 => ⟨fun h2 => ?_, fun h2 => ⟨fun h3 => ?_,
      fun h3 => ⟨fun h4 => ?_, fun h4 => ?_⟩⟩⟩⟩
    · rw [hbody, if_pos h1]
    · rw [hbody, if_neg h1, if_pos h2]
    · rw [hbody, if_neg h1, if_neg h2, if_pos h3]
    · rw [hbody, if_neg h1, if_neg h2, if_neg h3, if_pos h4]
    · rw [hbody, if_neg h1, if_neg h2, if_neg h3, if_neg h4]

/-- Witness for C9: a YES position of 50 contracts on an NBA ticker at
96¢ with one 70¢ buy fill hits the near-resolution rule and sells all
50; with a resting sell order for the ticker the same position is
skipped. -/
theorem profit_taking_priority_witness :
    profitTakingDecision [] [] false ⟨"KXNBATRADE-P", 50, Side.yes⟩ (some (96/100))
        [⟨Action.buy, Side.yes, some 70, 10⟩]
      = ProfitDecision.sell 50
          (max (posAvgEntry Side.yes [⟨Action.buy, Side.yes, some 70, 10⟩] + 3)
            ((sidePriceCents Side.yes (96/100) : ℚ) - 2)) ∧
    profitTakingDecision ["KXNBATRADE-P"] [] false ⟨"KXNBATRADE-P", 50, Side.yes⟩
        (some (96/100)) [⟨Action.buy, Side.yes, some 70, 10⟩]
      = ProfitDecision.skip :=
  ⟨((profit_taking_priority [] [] false ⟨"KXNBATRADE-P", 50, Side.yes⟩ (96/100)
        [⟨Action.buy, Side.yes, some 70, 10⟩]).2
      (by decide) rfl rfl rfl).1
      (by constructor
          · norm_num [sidePrice]
          · norm_num [posProfitPerContract, posAvgEntry, avgEntryOf, buyFillsOf,
              fillsTotalCost, fillsTotalContracts, fillEntryPrice, sidePriceCents,
              sidePrice, jsRound]),
   (profit_taking_priority ["KXNBATRADE-P"] [] false ⟨"KXNBATRADE-P", 50, Side.yes⟩ (96/100)
        [⟨Action.buy, Side.yes, some 70, 10⟩]).1
      (Or.inl (by decide)) (some (96/100))⟩

/-- The NO-side cost of a batch of fills is the complement of the
YES-side cost. -/
theorem fillsTotalCost_no (fills : List Fill) :
    fillsTotalCost Side.no fills =
      100 * fillsTotalContracts fills - fillsTotalCost Side.yes fills := by
  induction fills with
  | nil => simp [fillsTotalCost, fillsTotalContracts]
  | cons f t ih =>
    simp only [fillsTotalCost, fillsTotalContracts, List.map_cons, List.sum_cons,
      fillEntryPrice] at ih ⊢
    rw [ih]
    ring

/-- C1: every NO-side price in the P&L and exit computations inverts the
YES price — the current side price in cents is `100 − yesPrice` cents;
the average entry from buy fills prices each fill at `100 − yes_price`,
so it is the complement of the YES-basis average; and a NO position
recorded with an entry above 50 is corrected to `100 − entry` (62 ↦ 38)
with P&L recomputed against the corrected entry, not the recorded one. -/
theorem no_side_inversion_pnl :
    (∀ k : ℤ, sidePriceCents Side.no ((k : ℚ) / 100) = 100 - k) ∧
    (∀ fills : List Fill, 0 < fillsTotalContracts fills →
      avgEntryOf Side.no fills = 100 - avgEntryOf Side.yes fills) ∧
    (∀ pos : UiPosition, pos.side = Side.no → 50 < pos.avg_entry_price →
      (correctPosition pos).avg_entry_price = 100 - pos.avg_entry_price ∧
      (correctPosition pos).pnl
        = pos.value - (100 - pos.avg_entry_price) * pos.contracts / 100) ∧
    (∀ pos : UiPosition, pos.side = Side.no → pos.avg_entry_price = 62 →
      (correctPosition pos).avg_entry_price = 38 ∧
      (correctPosition pos).pnl = pos.value - 38 * pos.contracts / 100) := by
  have part3 : ∀ pos : UiPosition, pos.side = Side.no → 50 < pos.avg_entry_price →
      (correctPosition pos).avg_entry_price = 100 - pos.avg_entry_price ∧
      (correctPosition pos).pnl
        = pos.value - (100 - pos.avg_entry_price) * pos.contracts / 100 := by
    intro pos hside hentry
    unfold correctPosition
    rw [if_pos ⟨hside, hentry⟩]
    exact ⟨rfl, rfl⟩
  refine ⟨?_, ?_, part3, ?_⟩
  · intro k
    unfold sidePriceCents sidePrice jsRound
    have h : (1 - (k : ℚ) / 100) * 100 + 1/2 = ((100 - k : ℤ) : ℚ) + 1/2 := by
      push_cast
      ring
    rw [h, Int.floor_int_add]
    norm_num
  · intro fills h
    have hT : fillsTotalContracts fills ≠ 0 := ne_of_gt h
    unfold avgEntryOf
    rw [if_pos h, if_pos h, fillsTotalCost_no]
    field_simp
  · intro pos hside hentry
    have h50 : (50 : ℚ) < pos.avg_entry_price := by
      rw [hentry]
      norm_num
    obtain ⟨h1, h2⟩ := part3 pos hside h50
    rw [hentry] at h1 h2
    constructor
    · rw [h1]
      norm_num
    · rw [h2]
      norm_num

/-- Witness for C1: a NO position at recorded YES-basis entry 62 with 50
contracts worth $20 corrects to entry 38 and P&L against 38; the NO-side
cents of a 62¢ YES price are 38; a one-fill NO batch averages the
complement of its YES average. -/
theorem no_side_inversion_pnl_witness :
    sidePriceCents Side.no ((62 : ℚ) / 100) = 100 - 62 ∧
    (correctPosition ⟨"TICK-X", "trade", Side.no, 62, 50, 20, 0⟩).avg_entry_price = 38 ∧
    (correctPosition ⟨"TICK-X", "trade", Side.no, 62, 50, 20, 0⟩).pnl = 20 - 38 * 50 / 100 ∧
    avgEntryOf Side.no [⟨Action.buy, Side.no, some 62, 10⟩]
      = 100 - avgEntryOf Side.yes [⟨Action.buy, Side.no, some 62, 10⟩] :=
  ⟨no_side_inversion_pnl.1 62,
   (no_side_inversion_pnl.2.2.2 ⟨"TICK-X", "trade", Side.no, 62, 50, 20, 0⟩ rfl rfl).1,
   (no_side_inversion_pnl.2.2.2 ⟨"TICK-X", "trade", Side.no, 62, 50, 20, 0⟩ rfl rfl).2,
   no_side_inversion_pnl.2.1 [⟨Action.buy, Side.no, some 62, 10⟩]
     (by norm_num [fillsTotalContracts])⟩

end Edgelord
